import Mathlib

/-!
Shallow embedding of the vocab-quizzer core (NestJS + Redis) in Lean 4.

Source files embedded here:
* `src/quiz/services/question.service.ts` (QuestionService) and
  `src/quiz/data/question-bank.data.ts` (QUESTION_BANK),
* `src/quiz/services/quiz.service.ts` (QuizService),
* `src/redis/redis.service.ts` (RedisService) over one quiz id; the Redis
  sorted-set primitives (`ZADD`/`ZINCRBY`/`ZSCORE`/`ZREVRANK`/`ZREVRANGE`)
  are modelled with their documented semantics: members carry a numeric
  score, and range queries order by score with equal scores ordered
  lexicographically by member (`ZREVRANGE` reverses both orders).

JavaScript numbers are modelled by `ℚ`/`ℤ`/`ℕ` (all numeric values that the
embedded code produces are exactly representable), `Date` values by a `Nat`
timestamp passed in as `now`, and thrown `NotFoundException` /
`BadRequestException` by an `Except` result.  The random array shuffles are
injected as explicit permutation parameters.
-/

namespace VocabQuiz

/-- Difficulty tier of a question (the TS union type `'easy' | 'medium' | 'hard'`). -/
inductive Difficulty
| easy
| medium
| hard
deriving DecidableEq

/-- A quiz question (`interface Question` in `quiz.interface.ts`). -/
structure Question where
  id : String
  text : String
  options : List String
  correctAnswer : String
  difficulty : Difficulty
  category : String
  points : Nat
deriving DecidableEq

/-- JS `String.prototype.toLowerCase` on the ASCII data appearing in this code base. -/
def jsToLower (s : String) : String := ⟨s.data.map Char.toLower⟩

/-- Whitespace characters relevant to JS `String.prototype.trim` for this data. -/
def isJsWhitespace (c : Char) : Bool := c = ' ' || c = '\t' || c = '\n' || c = '\r'

/-- JS `String.prototype.trim`: strip leading and trailing whitespace. -/
def jsTrim (s : String) : String :=
  ⟨((s.data.dropWhile isJsWhitespace).reverse.dropWhile isJsWhitespace).reverse⟩

/-- JS `Math.round`: round half toward positive infinity. -/
def jsRound (x : ℚ) : ℤ := ⌊x + 1/2⌋

/-- JS `Array.prototype.slice(0, e)`: a negative end index counts from the end of
the array (clamped at 0); a non-negative one is an exclusive upper bound. -/
def jsSlice0 {α : Type} (l : List α) (e : ℤ) : List α :=
  if e < 0 then l.take (((l.length : ℤ) + e).toNat) else l.take e.toNat

-- The static QUESTION_BANK from `question-bank.data.ts`, one definition per entry.

/-- Question q1 of QUESTION_BANK. -/
def q1 : Question :=
  ⟨"q1", "What does \"happy\" mean?", ["Sad", "Joyful", "Angry", "Tired"],
   "Joyful", .easy, "emotions", 10⟩

/-- Question q2 of QUESTION_BANK. -/
def q2 : Question :=
  ⟨"q2", "Choose the synonym of \"big\"?", ["Small", "Large", "Tiny", "Little"],
   "Large", .easy, "adjectives", 10⟩

/-- Question q3 of QUESTION_BANK. -/
def q3 : Question :=
  ⟨"q3", "What is the opposite of \"hot\"?", ["Warm", "Cold", "Cool", "Freezing"],
   "Cold", .easy, "antonyms", 10⟩

/-- Question q4 of QUESTION_BANK. -/
def q4 : Question :=
  ⟨"q4", "What does \"eat\" mean?", ["To drink", "To sleep", "To consume food", "To run"],
   "To consume food", .easy, "verbs", 10⟩

/-- Question q5 of QUESTION_BANK. -/
def q5 : Question :=
  ⟨"q5", "Choose the correct spelling:", ["Freind", "Friend", "Frend", "Friand"],
   "Friend", .easy, "spelling", 10⟩

/-- Question q6 of QUESTION_BANK. -/
def q6 : Question :=
  ⟨"q6", "What does \"ambitious\" mean?",
   ["Lazy and unmotivated", "Having strong desire to succeed", "Feeling tired", "Being friendly"],
   "Having strong desire to succeed", .medium, "adjectives", 15⟩

/-- Question q7 of QUESTION_BANK. -/
def q7 : Question :=
  ⟨"q7", "Choose the synonym of \"demonstrate\"?", ["Hide", "Show", "Forget", "Ignore"],
   "Show", .medium, "verbs", 15⟩

/-- Question q8 of QUESTION_BANK. -/
def q8 : Question :=
  ⟨"q8", "What does \"reluctant\" mean?", ["Very eager", "Unwilling", "Happy", "Excited"],
   "Unwilling", .medium, "adjectives", 15⟩

/-- Question q9 of QUESTION_BANK. -/
def q9 : Question :=
  ⟨"q9",
   "Choose the word that best completes: \"The evidence was ___ enough to convince the jury.\"",
   ["Compelling", "Boring", "Weak", "Funny"], "Compelling", .medium, "context", 15⟩

/-- Question q10 of QUESTION_BANK. -/
def q10 : Question :=
  ⟨"q10", "What is the meaning of \"procrastinate\"?",
   ["To work quickly", "To delay or postpone", "To celebrate", "To organize"],
   "To delay or postpone", .medium, "verbs", 15⟩

/-- Question q11 of QUESTION_BANK. -/
def q11 : Question :=
  ⟨"q11", "What does \"ephemeral\" mean?",
   ["Lasting for a very short time", "Eternal and everlasting", "Heavy and solid",
    "Brightly colored"],
   "Lasting for a very short time", .hard, "advanced", 20⟩

/-- Question q12 of QUESTION_BANK. -/
def q12 : Question :=
  ⟨"q12", "Choose the synonym of \"ubiquitous\"?", ["Rare", "Omnipresent", "Ancient", "Modern"],
   "Omnipresent", .hard, "advanced", 20⟩

/-- Question q13 of QUESTION_BANK. -/
def q13 : Question :=
  ⟨"q13", "What does \"esoteric\" mean?",
   ["Common and ordinary", "Understood by few; specialized", "Very expensive", "Extremely large"],
   "Understood by few; specialized", .hard, "advanced", 20⟩

/-- Question q14 of QUESTION_BANK. -/
def q14 : Question :=
  ⟨"q14", "Choose the correct usage of \"ameliorate\"?",
   ["To make worse", "To make better", "To describe", "To remember"],
   "To make better", .hard, "verbs", 20⟩

/-- Question q15 of QUESTION_BANK. -/
def q15 : Question :=
  ⟨"q15", "What is the meaning of \"sycophant\"?",
   ["A brave leader", "A person who flatters to gain advantage", "A talented artist",
    "An honest critic"],
   "A person who flatters to gain advantage", .hard, "nouns", 20⟩

/-- Question q16 of QUESTION_BANK. -/
def q16 : Question :=
  ⟨"q16", "What does \"perspicacious\" mean?",
   ["Confused and unclear", "Having keen insight", "Very tall", "Extremely wealthy"],
   "Having keen insight", .hard, "advanced", 20⟩

/-- Question q17 of QUESTION_BANK. -/
def q17 : Question :=
  ⟨"q17", "Choose the synonym of \"obfuscate\"?", ["Clarify", "Confuse", "Simplify", "Explain"],
   "Confuse", .hard, "verbs", 20⟩

/-- Question q18 of QUESTION_BANK. -/
def q18 : Question :=
  ⟨"q18", "What does \"magnanimous\" mean?",
   ["Selfish and greedy", "Generous and forgiving", "Angry and bitter", "Shy and quiet"],
   "Generous and forgiving", .hard, "adjectives", 20⟩

/-- Question q19 of QUESTION_BANK. -/
def q19 : Question :=
  ⟨"q19", "What is a \"panacea\"?",
   ["A solution for all problems", "A type of disease", "A small amount",
    "A religious ceremony"],
   "A solution for all problems", .hard, "nouns", 20⟩

/-- Question q20 of QUESTION_BANK. -/
def q20 : Question :=
  ⟨"q20", "What does \"recalcitrant\" mean?",
   ["Obedient and compliant", "Stubbornly resistant to authority", "Very intelligent",
    "Extremely fast"],
   "Stubbornly resistant to authority", .hard, "adjectives", 20⟩

/-- The static question bank (`QUESTION_BANK` in `question-bank.data.ts`). -/
def QUESTION_BANK : List Question :=
  [q1, q2, q3, q4, q5, q6, q7, q8, q9, q10, q11, q12, q13, q14, q15, q16, q17, q18, q19, q20]

-- QuestionService (`question.service.ts`), parameterised by its question bank.

/-- `QuestionService.getQuestionsByDifficulty`. -/
def getQuestionsByDifficulty (bank : List Question) (d : Difficulty) : List Question :=
  bank.filter (fun q => decide (q.difficulty = d))

/-- `QuestionService.getQuestionById` (`Array.prototype.find`). -/
def getQuestionById (bank : List Question) (id : String) : Option Question :=
  bank.find? (fun q => q.id == id)

/-- `QuestionService.validateAnswer`: case-insensitive, whitespace-trimmed comparison
against the correct option; `false` when the question id does not resolve. -/
def validateAnswer (bank : List Question) (questionId answer : String) : Bool :=
  match getQuestionById bank questionId with
  | none => false
  | some q => jsTrim (jsToLower q.correctAnswer) == jsTrim (jsToLower answer)

/-- `QuestionService.calculatePoints`: 0 for an incorrect answer or unresolved question;
otherwise the base points, with a rounded time bonus of up to 50% when
`timeTaken < timeLimit`.  Note the source applies the bonus whenever
`timeTaken < timeLimit`, with no lower clamp on `timeTaken`. -/
def calculatePoints (bank : List Question) (questionId : String) (isCorrect : Bool)
    (timeTaken timeLimit : ℚ) : ℤ :=
  if isCorrect = false then 0
  else
    match getQuestionById bank questionId with
    | none => 0
    | some q =>
      if timeTaken < timeLimit then
        jsRound ((q.points : ℚ) * (1 + ((timeLimit - timeTaken) / timeLimit) * (1/2)))
      else (q.points : ℤ)

/-- `Math.ceil(count * 0.4)` of `getBalancedQuestions` (the easy-tier target).
`0.4` and the products appearing here are exact in ℚ as they are in doubles. -/
def easyTarget (count : Nat) : Nat := ⌈(count : ℚ) * (2/5)⌉₊

/-- `Math.ceil(count * 0.4)` of `getBalancedQuestions` (the medium-tier target). -/
def mediumTarget (count : Nat) : Nat := ⌈(count : ℚ) * (2/5)⌉₊

/-- `count - easyCount - mediumCount` of `getBalancedQuestions`; negative for some counts. -/
def hardTarget (count : Nat) : ℤ := (count : ℤ) - easyTarget count - mediumTarget count

/-- `QuestionService.getBalancedQuestions`, with the four in-place random shuffles
injected as explicit functions (`shuffleEasy`, `shuffleMedium`, `shuffleHard` permute
the tier pools; `shuffleAll` permutes the assembled selection). -/
def getBalancedQuestions (bank : List Question)
    (shuffleEasy shuffleMedium shuffleHard shuffleAll : List Question → List Question)
    (count : Nat) : List Question :=
  let easy := getQuestionsByDifficulty bank .easy
  let medium := getQuestionsByDifficulty bank .medium
  let hard := getQuestionsByDifficulty bank .hard
  let selectedEasy := jsSlice0 (shuffleEasy easy) (easyTarget count)
  let selectedMedium := jsSlice0 (shuffleMedium medium) (mediumTarget count)
  let selectedHard := jsSlice0 (shuffleHard hard) (hardTarget count)
  shuffleAll (selectedEasy ++ selectedMedium ++ selectedHard)

/-- Resolving q1 in the bank. -/
lemma getQuestionById_q1 : getQuestionById QUESTION_BANK "q1" = some q1 := by decide

/-- Resolving q11 in the bank. -/
lemma getQuestionById_q11 : getQuestionById QUESTION_BANK "q11" = some q11 := by decide

/-- Evaluation of the 40% ceiling at a request of 3 questions. -/
lemma easyTarget_three : easyTarget 3 = 2 := by
  unfold easyTarget
  rw [Nat.ceil_eq_iff (by norm_num)]
  norm_num

/-- Evaluation of the medium-tier target at a request of 3 questions. -/
lemma mediumTarget_three : mediumTarget 3 = 2 := by
  unfold mediumTarget
  rw [Nat.ceil_eq_iff (by norm_num)]
  norm_num

/-- The hard-tier slice bound is negative at a request of 3 questions. -/
lemma hardTarget_three : hardTarget 3 = -1 := by
  unfold hardTarget
  rw [easyTarget_three, mediumTarget_three]
  norm_num

-- Association lists standing in for the per-quiz Redis keys.

/-- Read the value stored at key `k` (Redis `GET` / `HGET` / map member lookup). -/
def alookup {κ α : Type} [DecidableEq κ] (k : κ) : List (κ × α) → Option α
| [] => none
| (k₂, v) :: rest => if k₂ = k then some v else alookup k rest

/-- Insert-or-overwrite the value at key `k` (Redis `SET` / `HSET` / `ZADD` member update). -/
def aupsert {κ α : Type} [DecidableEq κ] (k : κ) (v : α) : List (κ × α) → List (κ × α)
| [] => [(k, v)]
| (k₂, v₂) :: rest => if k₂ = k then (k, v) :: rest else (k₂, v₂) :: aupsert k v rest

/-- Remove the entry at key `k` (Redis `DEL`). -/
def aerase {κ α : Type} [DecidableEq κ] (k : κ) : List (κ × α) → List (κ × α)
| [] => []
| (k₂, v) :: rest => if k₂ = k then aerase k rest else (k₂, v) :: aerase k rest

-- Byte-wise lexicographic order on members, as Redis compares sorted-set members
-- with equal scores (memcmp; for the ASCII ids used here, char-wise comparison).

/-- Lexicographic strict order on character lists (byte order for ASCII data). -/
def lexLtB : List Char → List Char → Bool
| [], [] => false
| [], _ :: _ => true
| _ :: _, [] => false
| a :: as, b :: bs => if a < b then true else if b < a then false else lexLtB as bs

lemma lexLtB_irrefl (l : List Char) : lexLtB l l = false := by
  induction l with
  | nil => rfl
  | cons a as ih => simp [lexLtB, lt_irrefl, ih]

lemma lexLtB_asymm : ∀ {a b : List Char}, lexLtB a b = true → lexLtB b a = false
| [], [], h => by simp [lexLtB] at h
| [], _ :: _, _ => rfl
| _ :: _, [], h => by simp [lexLtB] at h
| a :: as, b :: bs, h => by
  by_cases hab : a < b
  · simp [lexLtB, hab, asymm hab, ne_of_gt hab]
  · by_cases hba : b < a
    · simp [lexLtB, hab, hba] at h
    · have has : lexLtB as bs = true := by simpa [lexLtB, hab, hba] using h
      simp [lexLtB, hab, hba, lexLtB_asymm has]

lemma lexLtB_trans : ∀ {a b c : List Char},
    lexLtB a b = true → lexLtB b c = true → lexLtB a c = true
| [], _, _ :: _, _, _ => rfl
| [], _ :: _, [], _, h2 => by simp [lexLtB] at h2
| [], [], _, h1, _ => by simp [lexLtB] at h1
| _ :: _, [], _, h1, _ => by simp [lexLtB] at h1
| _ :: _, _ :: _, [], _, h2 => by simp [lexLtB] at h2
| a :: as, b :: bs, c :: cs, h1, h2 => by
  by_cases hab : a < b
  · by_cases hbc : b < c
    · have : a < c := lt_trans hab hbc
      simp [lexLtB, this]
    · by_cases hcb : c < b
      · simp [lexLtB, hbc, hcb] at h2
      · have hbc2 : b = c := le_antisymm (not_lt.1 hcb) (not_lt.1 hbc)
        simp [lexLtB, hbc2 ▸ hab]
  · by_cases hba : b < a
    · simp [lexLtB, hab, hba] at h1
    · have hab2 : a = b := le_antisymm (not_lt.1 hba) (not_lt.1 hab)
      subst hab2
      by_cases hbc : a < c
      · simp [lexLtB, hbc]
      · by_cases hcb : c < a
        · simp [lexLtB, hbc, hcb] at h2
        · have h1s : lexLtB as bs = true := by
            simpa [lexLtB, lt_irrefl] using h1
          have h2s : lexLtB bs cs = true := by
            simpa [lexLtB, hbc, hcb] using h2
          simp [lexLtB, hbc, hcb, lexLtB_trans h1s h2s]

lemma lexLtB_eq_of_not : ∀ {a b : List Char},
    lexLtB a b = false → lexLtB b a = false → a = b
| [], [], _, _ => rfl
| [], _ :: _, h1, _ => by simp [lexLtB] at h1
| _ :: _, [], _, h2 => by simp [lexLtB] at h2
| a :: as, b :: bs, h1, h2 => by
  by_cases hab : a < b
  · simp [lexLtB, hab] at h1
  · by_cases hba : b < a
    · simp [lexLtB, hab, hba] at h2
    · have hab2 : a = b := le_antisymm (not_lt.1 hba) (not_lt.1 hab)
      subst hab2
      have h1s : lexLtB as bs = false := by simpa [lexLtB, lt_irrefl] using h1
      have h2s : lexLtB bs as = false := by simpa [lexLtB, lt_irrefl] using h2
      rw [lexLtB_eq_of_not h1s h2s]

-- The quiz data model (quiz.interface.ts) over one quiz session.

/-- Session status (`enum QuizStatus`). -/
inductive QuizStatus
| waiting
| inProgress
| completed
deriving DecidableEq

/-- A participant record (`interface Participant`). -/
structure Participant where
  userId : String
  username : String
  socketId : String
  joinedAt : Nat
  score : ℤ
  answersSubmitted : Nat
deriving DecidableEq

/-- A quiz session (`interface QuizSession`). -/
structure QuizSession where
  quizId : String
  title : String
  status : QuizStatus
  questions : List Question
  currentQuestionIndex : Nat
  startTime : Option Nat
  endTime : Option Nat
  createdAt : Nat
  maxParticipants : Nat
deriving DecidableEq

/-- The value stored per answered question (argument of `RedisService.storeAnswer`). -/
structure AnswerRecord where
  answer : String
  correct : Bool
  correctAnswer : String
  earnedPoints : ℤ
  timeTaken : ℚ
  submittedAt : Nat
deriving DecidableEq

/-- The payload returned by `QuizService.submitAnswer` (`interface AnswerResult`). -/
structure AnswerResult where
  correct : Bool
  correctAnswer : String
  earnedPoints : ℤ
  currentScore : ℤ
  rank : Nat
deriving DecidableEq

/-- All Redis keys of one quiz id: the session value, the participants set, the
per-participant records, the scores sorted set (insertion order retained so that
arrival order is visible to the theorems), the answers hashes, and the current
question index key (absent reads as 0, as in `RedisService.getCurrentQuestion`). -/
structure RedisState where
  session : Option QuizSession
  participants : List String
  participantData : List (String × Participant)
  scores : List (String × ℤ)
  answers : List ((String × String) × AnswerRecord)
  currentQuestion : Option Nat
deriving DecidableEq

/-- `RedisService.getParticipantCount` (`SCARD`). -/
def getParticipantCount (s : RedisState) : Nat := s.participants.length

/-- `SADD`: add a member to a set if absent. -/
def sadd (u : String) (l : List String) : List String := if u ∈ l then l else l ++ [u]

/-- `RedisService.addParticipant`: `SADD` to the participants set and store the record. -/
def addParticipant (s : RedisState) (u : String) (p : Participant) : RedisState :=
  { s with participants := sadd u s.participants,
           participantData := aupsert u p s.participantData }

/-- `RedisService.removeParticipant`: `SREM` from the set and `DEL` the record. -/
def removeParticipantR (s : RedisState) (u : String) : RedisState :=
  { s with participants := s.participants.filter (fun v => v != u),
           participantData := aerase u s.participantData }

/-- `RedisService.updateScore` (`ZADD`): set the member's score. -/
def updateScore (s : RedisState) (u : String) (sc : ℤ) : RedisState :=
  { s with scores := aupsert u sc s.scores }

/-- `RedisService.getScore` (`ZSCORE`, absent member read as 0). -/
def getScore (s : RedisState) (u : String) : ℤ := (alookup u s.scores).getD 0

/-- `RedisService.incrementScore` (`ZINCRBY`): atomic add, returning the new score. -/
def incrementScore (s : RedisState) (u : String) (d : ℤ) : ℤ × RedisState :=
  let ns := (alookup u s.scores).getD 0 + d
  (ns, { s with scores := aupsert u ns s.scores })

/-- Ordering produced by `ZREVRANGE`: descending score, equal scores in descending
lexicographic member order. -/
def zrevLeB (a b : String × ℤ) : Bool :=
  if a.2 = b.2 then !(lexLtB a.1.data b.1.data) else decide (b.2 < a.2)

/-- Propositional form of `zrevLeB`. -/
def zrevLe (a b : String × ℤ) : Prop := zrevLeB a b = true

instance : DecidableRel zrevLe := fun a b => by
  unfold zrevLe
  infer_instance

instance : IsTotal (String × ℤ) zrevLe := by
  constructor
  intro a b
  unfold zrevLe zrevLeB
  rcases lt_trichotomy a.2 b.2 with h | h | h
  · right
    simp [(ne_of_lt h).symm, h]
  · cases hl : lexLtB a.1.data b.1.data with
    | false => left; simp [h, hl]
    | true => right; simp [h, lexLtB_asymm hl]
  · left
    simp [ne_of_gt h, h]

instance : IsTrans (String × ℤ) zrevLe := by
  constructor
  intro a b c h1 h2
  unfold zrevLe zrevLeB at h1 h2 ⊢
  by_cases hab : a.2 = b.2
  · by_cases hbc : b.2 = c.2
    · have hac : a.2 = c.2 := hab.trans hbc
      have h1l : lexLtB a.1.data b.1.data = false := by
        simpa [hab] using h1
      have h2l : lexLtB b.1.data c.1.data = false := by
        simpa [hbc] using h2
      have hacl : lexLtB a.1.data c.1.data = false := by
        cases hba : lexLtB b.1.data a.1.data with
        | true =>
          cases hacb : lexLtB a.1.data c.1.data with
          | true => rw [lexLtB_trans hba hacb] at h2l; cases h2l
          | false => rfl
        | false => rw [lexLtB_eq_of_not h1l hba, h2l]
      simp [hac, hacl]
    · have hc : c.2 < b.2 := by
        rcases lt_trichotomy b.2 c.2 with h | h | h
        · simp [hbc, not_lt.2 (le_of_lt h)] at h2
        · exact absurd h hbc
        · exact h
      have hac : a.2 ≠ c.2 := by rw [hab]; exact (ne_of_lt hc).symm
      simp [hac, hab ▸ hc]
  · have hb : b.2 < a.2 := by
      rcases lt_trichotomy a.2 b.2 with h | h | h
      · simp [hab, not_lt.2 (le_of_lt h)] at h1
      · exact absurd h hab
      · exact h
    by_cases hbc : b.2 = c.2
    · have hc : c.2 < a.2 := hbc ▸ hb
      simp [(ne_of_gt hc), hc]
    · have hc : c.2 < b.2 := by
        rcases lt_trichotomy b.2 c.2 with h | h | h
        · simp [hbc, not_lt.2 (le_of_lt h)] at h2
        · exact absurd h hbc
        · exact h
      have hca : c.2 < a.2 := lt_trans hc hb
      simp [ne_of_gt hca, hca]

/-- The scores sorted set read out in `ZREVRANGE` order. -/
def sortedScores (s : RedisState) : List (String × ℤ) := List.insertionSort zrevLe s.scores

/-- Position of a member in the `ZREVRANGE` member order, none when absent. -/
def zrevrankAux (u : String) : List String → Option Nat
| [] => none
| v :: rest => if v = u then some 0 else (zrevrankAux u rest).map (· + 1)

/-- `RedisService.getRank` (`ZREVRANK`): 0-based descending rank, absent member gives none. -/
def getRank (s : RedisState) (u : String) : Option Nat :=
  zrevrankAux u ((sortedScores s).map Prod.fst)

/-- An entry of `RedisService.getLeaderboard` (`{ userId, score, rank }`). -/
structure ScoreEntry where
  userId : String
  score : ℤ
  rank : Nat
deriving DecidableEq

/-- An entry of `RedisService.getFullLeaderboard` (`{ userId, username, score, rank }`). -/
structure LeaderboardEntry where
  userId : String
  username : String
  score : ℤ
  rank : Nat
deriving DecidableEq

/-- `RedisService.getLeaderboard`: `ZREVRANGE 0 (limit-1) WITHSCORES` paired with
1-based ranks.  A limit of 0 turns the stop index into -1, which Redis reads as
the end of the set. -/
def redisGetLeaderboard (s : RedisState) (limit : Nat) : List ScoreEntry :=
  let entries := if limit = 0 then sortedScores s else (sortedScores s).take limit
  entries.enum.map (fun p => ⟨p.2.1, p.2.2, p.1 + 1⟩)

/-- `RedisService.getFullLeaderboard`: the whole set in `ZREVRANGE` order, each entry
joined with the stored username (a falsy username reads as "Unknown"). -/
def redisGetFullLeaderboard (s : RedisState) : List LeaderboardEntry :=
  (sortedScores s).enum.map (fun p =>
    { userId := p.2.1
      username :=
        match alookup p.2.1 s.participantData with
        | some part => if part.username = "" then "Unknown" else part.username
        | none => "Unknown"
      score := p.2.2
      rank := p.1 + 1 })

-- QuizService (`quiz.service.ts`).  A thrown NotFoundException / BadRequestException
-- aborts the request before any further store write, so operations return an
-- `Except`: the error value carries no state, and the driver `runOp` below keeps
-- the pre-call state in that case, exactly as the source behaves.

/-- Typed failures of the service (`NotFoundException` / `BadRequestException`). -/
inductive QuizError
| notFound (msg : String)
| badRequest (msg : String)
deriving DecidableEq

/-- The configuration read in the QuizService constructor, plus the question bank
behind the injected QuestionService. -/
structure Config where
  maxParticipants : Nat
  timeBonusEnabled : Bool
  bank : List Question

/-- `QuizService.joinQuiz`: not-found on a missing session, rejection of completed
sessions, capacity check, then either a socket-id-only update of an existing
participant record or creation of a fresh participant with a zero score entry. -/
def joinQuiz (cfg : Config) (now : Nat) (userId username socketId : String)
    (s : RedisState) : Except QuizError (QuizSession × RedisState) :=
  match s.session with
  | none => .error (.notFound "Quiz session not found")
  | some sess =>
    if sess.status = .completed then .error (.badRequest "Quiz has already completed")
    else if cfg.maxParticipants ≤ getParticipantCount s then
      .error (.badRequest "Quiz is full")
    else
      match alookup userId s.participantData with
      | some p => .ok (sess, addParticipant s userId { p with socketId := socketId })
      | none =>
        let p : Participant := ⟨userId, username, socketId, now, 0, 0⟩
        .ok (sess, updateScore (addParticipant s userId p) userId 0)

/-- `QuizService.startQuiz`: only a waiting session with at least one participant
starts; the session moves to in-progress with the start time and question index 0,
and the current-question key is set to 0. -/
def startQuiz (now : Nat) (s : RedisState) : Except QuizError (QuizSession × RedisState) :=
  match s.session with
  | none => .error (.notFound "Quiz session not found")
  | some sess =>
    if sess.status ≠ .waiting then .error (.badRequest "Quiz has already started or completed")
    else if getParticipantCount s = 0 then
      .error (.badRequest "Cannot start quiz with no participants")
    else
      let sess1 := { sess with status := .inProgress, startTime := some now,
                               currentQuestionIndex := 0 }
      .ok (sess1, { s with session := some sess1, currentQuestion := some 0 })

/-- The current question index as `RedisService.getCurrentQuestion` reads it
(missing key parsed as 0). -/
def currentIndex (s : RedisState) : Nat := s.currentQuestion.getD 0

/-- `QuizService.getCurrentQuestion`: bounds-check the current index, then return
the stored question with its `correctAnswer` field blanked. -/
def getCurrentQuestion (s : RedisState) : Except QuizError Question :=
  match s.session with
  | none => .error (.notFound "Quiz session not found")
  | some sess =>
    match sess.questions.drop (currentIndex s) with
    | [] => .error (.badRequest "No more questions available")
    | q :: _ => .ok { q with correctAnswer := "" }

/-- `QuizService.completeQuiz`: set status completed and the end time, persist. -/
def completeQuiz (now : Nat) (s : RedisState) : Except QuizError (QuizSession × RedisState) :=
  match s.session with
  | none => .error (.notFound "Quiz session not found")
  | some sess =>
    let sess1 := { sess with status := .completed, endTime := some now }
    .ok (sess1, { s with session := some sess1 })

/-- `QuizService.nextQuestion`: past the last question, run `completeQuiz` and
signal no further question; otherwise advance the index and return the sanitized
question at the new index. -/
def nextQuestion (now : Nat) (s : RedisState) :
    Except QuizError (Option Question × RedisState) :=
  match s.session with
  | none => .error (.notFound "Quiz session not found")
  | some sess =>
    if sess.questions.length ≤ currentIndex s + 1 then
      match completeQuiz now s with
      | .error e => .error e
      | .ok (_, s1) => .ok (none, s1)
    else
      let sess1 := { sess with currentQuestionIndex := currentIndex s + 1 }
      let s1 := { s with session := some sess1, currentQuestion := some (currentIndex s + 1) }
      match getCurrentQuestion s1 with
      | .error e => .error e
      | .ok q => .ok (some q, s1)

/-- `QuizService.submitAnswer`: requires an in-progress session; a stored answer for
the (participant, question) pair short-circuits to the cached result (note the
missing 1-based rank conversion there); otherwise validate against the global bank,
award points, increment the score when positive, store the answer record, update
the participant's counters, and return the 1-based rank. -/
def submitAnswer (cfg : Config) (now : Nat) (userId questionId answer : String)
    (timeTaken : ℚ) (s : RedisState) : Except QuizError (AnswerResult × RedisState) :=
  match s.session with
  | none => .error (.notFound "Quiz session not found")
  | some sess =>
    if sess.status ≠ .inProgress then .error (.badRequest "Quiz is not in progress")
    else
      match alookup (userId, questionId) s.answers with
      | some existing =>
        .ok ({ correct := existing.correct
               correctAnswer := existing.correctAnswer
               earnedPoints := existing.earnedPoints
               currentScore := getScore s userId
               rank := (getRank s userId).getD 0 }, s)
      | none =>
        let isCorrect := validateAnswer cfg.bank questionId answer
        match getQuestionById cfg.bank questionId with
        | none => .error (.notFound "Question not found")
        | some q =>
          let earnedPoints : ℤ :=
            if cfg.timeBonusEnabled then calculatePoints cfg.bank questionId isCorrect timeTaken 30
            else if isCorrect then (q.points : ℤ) else 0
          let scored :=
            if 0 < earnedPoints then incrementScore s userId earnedPoints
            else (getScore s userId, s)
          let newScore := scored.1
          let record : AnswerRecord :=
            ⟨answer, isCorrect, q.correctAnswer, earnedPoints, timeTaken, now⟩
          let s2 := { scored.2 with answers := aupsert (userId, questionId) record scored.2.answers }
          let s3 :=
            match alookup userId s2.participantData with
            | some p =>
              addParticipant s2 userId
                { p with answersSubmitted := p.answersSubmitted + 1, score := newScore }
            | none => s2
          .ok ({ correct := isCorrect
                 correctAnswer := q.correctAnswer
                 earnedPoints := earnedPoints
                 currentScore := newScore
                 rank := (getRank s3 userId).getD 0 + 1 }, s3)

/-- The answer-ledger entries of one participant
(`RedisService.getAllAnswers` over the per-user hash). -/
def answersFor (s : RedisState) (u : String) : List ((String × String) × AnswerRecord) :=
  s.answers.filter (fun e => e.1.1 == u)

/-- Sum of the stored `earnedPoints` over a participant's answer records. -/
def answerPointsSum (s : RedisState) (u : String) : ℤ :=
  ((answersFor s u).map (fun e => e.2.earnedPoints)).sum

-- A driver over the controller operations named by the spec, for stating
-- multi-step invariants.  An operation that throws leaves the Redis state as it
-- was (the source raises before or instead of writing).

/-- One controller intent, with the wall-clock instant it is served at. -/
inductive Op
| join (userId username socketId : String) (now : Nat)
| start (now : Nat)
| submit (userId questionId answer : String) (timeTaken : ℚ) (now : Nat)
| advance (now : Nat)
| remove (userId : String)

/-- Run one operation against the stores, keeping the old state on a thrown error. -/
def runOp (cfg : Config) (s : RedisState) : Op → RedisState
| .join u un sock now =>
  match joinQuiz cfg now u un sock s with
  | .ok p => p.2
  | .error _ => s
| .start now =>
  match startQuiz now s with
  | .ok p => p.2
  | .error _ => s
| .submit u q a t now =>
  match submitAnswer cfg now u q a t s with
  | .ok p => p.2
  | .error _ => s
| .advance now =>
  match nextQuestion now s with
  | .ok p => p.2
  | .error _ => s
| .remove u => removeParticipantR s u

/-- Run a sequence of operations left to right. -/
def runOps (cfg : Config) (s : RedisState) : List Op → RedisState
| [] => s
| op :: ops => runOps cfg (runOp cfg s op) ops

/-- The Redis keyspace right after `createQuiz` stored a fresh session: no
participants, scores, answers or current-question key yet. -/
def initState (sess : QuizSession) : RedisState := ⟨some sess, [], [], [], [], none⟩

/-- A join is score-safe when the participant either still has their record
(reconnection path) or has no answer records yet; fresh joins of participants
with live answer history are what re-register a zero score. -/
def joinSafe (s : RedisState) : Op → Bool
| .join u _ _ _ => (alookup u s.participantData).isSome || (answersFor s u).isEmpty
| _ => true

/-- Every join along the trace is score-safe in the state it executes in. -/
def safeTrace (cfg : Config) (s : RedisState) : List Op → Bool
| [] => true
| op :: ops => joinSafe s op && safeTrace cfg (runOp cfg s op) ops

/-- The state component of a service call, with the pre-call state on error. -/
def okState {α : Type} (r : Except QuizError (α × RedisState)) (fallback : RedisState) :
    RedisState :=
  match r with
  | .ok p => p.2
  | .error _ => fallback

/-- The returned payload of a service call, none on error. -/
def okValue {α : Type} (r : Except QuizError (α × RedisState)) : Option α :=
  match r with
  | .ok p => some p.1
  | .error _ => none

/-- The default service configuration: max 100 participants, time bonus on, the
static bank. -/
def defaultConfig : Config := ⟨100, true, QUESTION_BANK⟩

/-- A concrete in-progress two-question session used by the concrete theorems. -/
def sessD : QuizSession := ⟨"QUIZ1", "Vocab", .inProgress, [q1, q6], 0, some 1, none, 0, 100⟩

/-- Keyspace of `sessD` with one joined participant. -/
def stateD : RedisState :=
  ⟨some sessD, ["A"], [("A", ⟨"A", "Alice", "sock1", 0, 0, 0⟩)], [("A", 0)], [], some 0⟩

-- Association-list lemmas shared by the invariant proofs.

lemma alookup_aupsert_self {κ α : Type} [DecidableEq κ] (k : κ) (v : α) :
    ∀ l : List (κ × α), alookup k (aupsert k v l) = some v
| [] => by simp [alookup, aupsert]
| (k₂, v₂) :: rest => by
  by_cases h : k₂ = k
  · simp [alookup, aupsert, h]
  · simp [alookup, aupsert, h, alookup_aupsert_self k v rest]

lemma alookup_aupsert_ne {κ α : Type} [DecidableEq κ] {k k₂ : κ} (v : α) (h : k₂ ≠ k) :
    ∀ l : List (κ × α), alookup k₂ (aupsert k v l) = alookup k₂ l
| [] => by simp [alookup, aupsert, Ne.symm h]
| (k₃, v₃) :: rest => by
  by_cases h3 : k₃ = k
  · subst h3
    simp [alookup, aupsert, Ne.symm h]
  · simp only [aupsert, if_neg h3]
    by_cases h32 : k₃ = k₂
    · simp [alookup, h32]
    · simp [alookup, h32, alookup_aupsert_ne v h rest]

lemma aupsert_eq_append {κ α : Type} [DecidableEq κ] {k : κ} (v : α) :
    ∀ {l : List (κ × α)}, alookup k l = none → aupsert k v l = l ++ [(k, v)]
| [], _ => rfl
| (k₂, v₂) :: rest, h => by
  by_cases h2 : k₂ = k
  · simp [alookup, h2] at h
  · have hr : alookup k rest = none := by simpa [alookup, h2] using h
    simp [aupsert, h2, aupsert_eq_append v hr]

/-- The helper `getQuizStats`-free part of claim C1: submitting the same answer twice.
The state reached by the first submission. -/
def stateC1 : RedisState :=
  okState (submitAnswer defaultConfig 10 "A" "q1" "Joyful" 30 stateD) stateD

/-- C1: claimed idempotence of `submitAnswer`.  The first call returns the 1-based
rank 1; the identical retransmission returns the cached result with the raw 0-based
rank 0, so the two payloads differ in `rank` even though correctness, points, score
and the stored ledger state agree — exactly one AnswerRecord exists after both
calls and the score is unchanged by the second. -/
theorem submitAnswer_retransmission_rank_mismatch :
    okValue (submitAnswer defaultConfig 10 "A" "q1" "Joyful" 30 stateD)
      = some ⟨true, "Joyful", 10, 10, 1⟩ ∧
    okValue (submitAnswer defaultConfig 20 "A" "q1" "Joyful" 30 stateC1)
      = some ⟨true, "Joyful", 10, 10, 0⟩ ∧
    okState (submitAnswer defaultConfig 20 "A" "q1" "Joyful" 30 stateC1) stateC1 = stateC1 ∧
    (answersFor stateC1 "A").length = 1 ∧
    getScore stateC1 "A" = 10 := by decide

/-- Rounding a whole number leaves it unchanged. -/
lemma jsRound_natCast (n : Nat) : jsRound (n : ℚ) = n := by
  unfold jsRound
  rw [Int.floor_eq_iff]
  constructor
  · push_cast
    linarith
  · push_cast
    linarith

/-- `jsRound` is monotone. -/
lemma jsRound_mono {x y : ℚ} (h : x ≤ y) : jsRound x ≤ jsRound y :=
  Int.floor_le_floor (by linarith)

/-- C3 counterexample: with a negative `timeTaken` the source formula awards more
than the claimed 1.5x cap (`calculatePoints` applies the bonus whenever
`timeTaken < timeLimit` and never clamps `timeTaken` at 0). -/
theorem calculatePoints_negative_time_beats_cap :
    calculatePoints QUESTION_BANK "q1" true (-30) 30 = 20 ∧
    jsRound ((3/2 : ℚ) * (q1.points : ℚ)) = 15 ∧
    ¬ calculatePoints QUESTION_BANK "q1" true (-30) 30
        ≤ jsRound ((3/2 : ℚ) * (q1.points : ℚ)) := by
  have h1 : calculatePoints QUESTION_BANK "q1" true (-30) 30 = 20 := by
    simp only [calculatePoints, getQuestionById_q1, q1]
    norm_num [jsRound]
  have h2 : jsRound ((3/2 : ℚ) * (q1.points : ℚ)) = 15 := by
    simp only [q1]
    norm_num [jsRound]
  refine ⟨h1, h2, ?_⟩
  rw [h1, h2]
  norm_num

/-- C3 amended: `calculatePoints` returns 0 for an incorrect answer and otherwise
equals `round(base * (1 + max(0, (timeLimit - timeTaken)/timeLimit) * 0.5))` with
NO clamping of `timeTaken`; the `round(1.5 * base)` cap therefore holds for all
`timeTaken ≥ 0` (not for negative values), and the four table cases hold. -/
theorem calculatePoints_characterization (bank : List Question) (questionId : String)
    (q : Question) (timeTaken timeLimit : ℚ)
    (hq : getQuestionById bank questionId = some q) (htl : 0 < timeLimit) :
    calculatePoints bank questionId false timeTaken timeLimit = 0 ∧
    calculatePoints bank questionId true timeTaken timeLimit
      = jsRound ((q.points : ℚ) * (1 + max 0 ((timeLimit - timeTaken) / timeLimit) * (1/2))) ∧
    (0 ≤ timeTaken →
      calculatePoints bank questionId true timeTaken timeLimit
        ≤ jsRound ((3/2 : ℚ) * (q.points : ℚ))) ∧
    calculatePoints QUESTION_BANK "q1" true 0 30 = 15 ∧
    calculatePoints QUESTION_BANK "q1" true 30 30 = 10 ∧
    calculatePoints QUESTION_BANK "q1" false 0 30 = 0 ∧
    calculatePoints QUESTION_BANK "q11" true 0 30 = 30 := by
  have hp : (0 : ℚ) ≤ (q.points : ℚ) := Nat.cast_nonneg _
  have hformula : calculatePoints bank questionId true timeTaken timeLimit
      = jsRound ((q.points : ℚ) * (1 + max 0 ((timeLimit - timeTaken) / timeLimit) * (1/2))) := by
    simp only [calculatePoints, hq]
    by_cases h : timeTaken < timeLimit
    · have hx : (0 : ℚ) ≤ (timeLimit - timeTaken) / timeLimit :=
        div_nonneg (by linarith) htl.le
      rw [if_neg (by simp), if_pos h, max_eq_right hx]
    · have hx : (timeLimit - timeTaken) / timeLimit ≤ 0 :=
        div_nonpos_of_nonpos_of_nonneg (by linarith [not_lt.1 h]) htl.le
      rw [if_neg (by simp), if_neg h, max_eq_left hx]
      rw [show (q.points : ℚ) * (1 + 0 * (1/2)) = ((q.points : ℚ)) by ring]
      exact (jsRound_natCast q.points).symm
  refine ⟨by simp [calculatePoints], hformula, ?_, ?_, ?_, ?_, ?_⟩
  · intro htt
    rw [hformula]
    apply jsRound_mono
    have hx1 : (timeLimit - timeTaken) / timeLimit ≤ 1 := by
      rw [div_le_one htl]
      linarith
    have hx0 : (0 : ℚ) ≤ max 0 ((timeLimit - timeTaken) / timeLimit) := le_max_left _ _
    have hx2 : max 0 ((timeLimit - timeTaken) / timeLimit) ≤ 1 :=
      max_le (by norm_num) hx1
    nlinarith
  · simp only [calculatePoints, getQuestionById_q1, q1]
    norm_num [jsRound]
  · simp only [calculatePoints, getQuestionById_q1, q1]
    norm_num
  · simp [calculatePoints]
  · simp only [calculatePoints, getQuestionById_q11, q11]
    norm_num [jsRound]

/-- Witness for C3 at `q1`, `timeTaken = 10`, `timeLimit = 30`. -/
theorem calculatePoints_characterization_witness :
    getQuestionById QUESTION_BANK "q1" = some q1 ∧ (0 : ℚ) < 30 ∧
    calculatePoints QUESTION_BANK "q1" false 10 30 = 0 :=
  ⟨by decide, by norm_num,
    (calculatePoints_characterization QUESTION_BANK "q1" q1 10 30 (by decide) (by norm_num)).1⟩

/-- C4: `startQuiz` succeeds exactly on a waiting session with at least one
participant; with zero participants it fails with the no-participants
precondition error; off the waiting state (in particular right after a
successful start) it fails with the already-started error; and a failed call
leaves the stores untouched. -/
theorem startQuiz_characterization (cfg : Config) (s : RedisState) (sess : QuizSession)
    (now now2 : Nat) (h : s.session = some sess) :
    ((∃ p, startQuiz now s = .ok p) ↔
      sess.status = .waiting ∧ 1 ≤ getParticipantCount s) ∧
    (∀ sess1 s1, startQuiz now s = .ok (sess1, s1) →
      sess1 = { sess with status := .inProgress, startTime := some now,
                          currentQuestionIndex := 0 } ∧
      s1 = { s with session := some sess1, currentQuestion := some 0 } ∧
      startQuiz now2 s1 = .error (.badRequest "Quiz has already started or completed")) ∧
    (sess.status = .waiting → getParticipantCount s = 0 →
      startQuiz now s = .error (.badRequest "Cannot start quiz with no participants")) ∧
    (sess.status ≠ .waiting →
      startQuiz now s = .error (.badRequest "Quiz has already started or completed")) ∧
    (∀ e, startQuiz now s = .error e → runOp cfg s (.start now) = s) := by
  by_cases hw : sess.status = .waiting
  · by_cases hc : getParticipantCount s = 0
    · have hrun : startQuiz now s
          = .error (.badRequest "Cannot start quiz with no participants") := by
        simp [startQuiz, h, hw, hc]
      refine ⟨?_, ?_, fun _ _ => hrun, fun hnw => absurd hw hnw, ?_⟩
      · constructor
        · rintro ⟨p, hp⟩
          rw [hrun] at hp
          simp at hp
        · rintro ⟨_, hge⟩
          omega
      · intro sess1 s1 hok
        rw [hrun] at hok
        simp at hok
      · intro e _
        simp [runOp, hrun]
    · have hrun : startQuiz now s
          = .ok ({ sess with status := .inProgress, startTime := some now,
                             currentQuestionIndex := 0 },
                 { s with session := some { sess with status := .inProgress,
                                                      startTime := some now,
                                                      currentQuestionIndex := 0 },
                          currentQuestion := some 0 }) := by
        simp [startQuiz, h, hw, hc]
      refine ⟨⟨fun _ => ⟨hw, Nat.one_le_iff_ne_zero.2 hc⟩, fun _ => ⟨_, hrun⟩⟩, ?_,
        fun _ hc0 => absurd hc0 hc, fun hnw => absurd hw hnw, ?_⟩
      · intro sess1 s1 hok
        rw [hrun] at hok
        simp only [Except.ok.injEq, Prod.mk.injEq] at hok
        obtain ⟨h1, h2⟩ := hok
        subst h1
        subst h2
        refine ⟨rfl, rfl, ?_⟩
        simp [startQuiz]
      · intro e he
        rw [hrun] at he
        simp at he
  · have hrun : startQuiz now s
        = .error (.badRequest "Quiz has already started or completed") := by
      simp only [startQuiz, h]
      rw [if_pos hw]
    refine ⟨?_, ?_, fun hww _ => absurd hww hw, fun _ => hrun, ?_⟩
    · constructor
      · rintro ⟨p, hp⟩
        rw [hrun] at hp
        simp at hp
      · rintro ⟨hww, _⟩
        exact absurd hww hw
    · intro sess1 s1 hok
      rw [hrun] at hok
      simp at hok
    · intro e _
      simp [runOp, hrun]

/-- A waiting session used as witness input for C4. -/
def sessC4 : QuizSession := ⟨"QUIZ3", "Vocab", .waiting, [q1, q6], 0, none, none, 0, 100⟩

/-- Keyspace of `sessC4` with one joined participant. -/
def stateC4 : RedisState :=
  ⟨some sessC4, ["A"], [("A", ⟨"A", "Alice", "sock1", 0, 0, 0⟩)], [("A", 0)], [], none⟩

/-- Witness for C4: a waiting one-participant session starts successfully. -/
theorem startQuiz_characterization_witness :
    stateC4.session = some sessC4 ∧ (∃ p, startQuiz 5 stateC4 = .ok p) :=
  ⟨rfl, (startQuiz_characterization defaultConfig stateC4 sessC4 5 6 rfl).1.mpr
    ⟨by decide, by decide⟩⟩

/-- C5 amended: whenever the next index would pass the last question — whether the
session is still in progress or already completed — `nextQuestion` runs
`completeQuiz`, so the stored session gets status Completed and its end timestamp
OVERWRITTEN with the current time, and the call returns "no further question".
On an already-completed session this is therefore not a strict no-op: the end
timestamp moves. -/
theorem nextQuestion_past_end (s : RedisState) (sess : QuizSession) (now : Nat)
    (h : s.session = some sess) (hend : sess.questions.length ≤ currentIndex s + 1) :
    nextQuestion now s =
      .ok (none, { s with
        session := some { sess with status := .completed, endTime := some now } }) := by
  simp only [nextQuestion, completeQuiz, h]
  rw [if_pos hend]

/-- A completed one-question session whose end timestamp is 100. -/
def sessC5 : QuizSession := ⟨"QUIZ4", "Vocab", .completed, [q1], 0, some 1, some 100, 0, 100⟩

/-- Keyspace of `sessC5`. -/
def stateC5 : RedisState :=
  ⟨some sessC5, ["A"], [("A", ⟨"A", "Alice", "sock1", 0, 10, 1⟩)], [("A", 10)], [], some 0⟩

/-- C5 counterexample: advancing a Completed session at clock 200 returns "no
further question" but rewrites the stored end timestamp from 100 to 200 — the
stored session state is NOT left unchanged. -/
theorem nextQuestion_completed_not_noop :
    sessC5.status = .completed ∧ sessC5.endTime = some 100 ∧
    okValue (nextQuestion 200 stateC5) = some none ∧
    (okState (nextQuestion 200 stateC5) stateC5).session
      = some { sessC5 with endTime := some 200 } ∧
    okState (nextQuestion 200 stateC5) stateC5 ≠ stateC5 := by decide

/-- Witness for C5: the amended theorem applied to the concrete completed session. -/
theorem nextQuestion_past_end_witness :
    stateC5.session = some sessC5 ∧ sessC5.questions.length ≤ currentIndex stateC5 + 1 ∧
    nextQuestion 200 stateC5 =
      .ok (none, { stateC5 with
        session := some { sessC5 with status := .completed, endTime := some 200 } }) :=
  ⟨rfl, by decide, nextQuestion_past_end stateC5 sessC5 200 rfl (by decide)⟩

/-- A one-seat configuration for the capacity counterexample. -/
def cfgC6 : Config := ⟨1, true, QUESTION_BANK⟩

/-- A waiting session capped at one participant. -/
def sessC6 : QuizSession := ⟨"QUIZ5", "Vocab", .waiting, [q1], 0, none, none, 0, 1⟩

/-- Keyspace of `sessC6` with its single participant already joined. -/
def stateC6 : RedisState :=
  ⟨some sessC6, ["A"], [("A", ⟨"A", "Alice", "sock1", 0, 0, 0⟩)], [("A", 0)], [], none⟩

/-- C6 counterexample: the capacity check runs BEFORE the reconnection check, so a
participant with an existing record reconnecting to a full (non-completed) session
gets "Quiz is full" and their delivery address is not updated. -/
theorem joinQuiz_reconnect_blocked_at_capacity :
    sessC6.status ≠ .completed ∧
    (alookup "A" stateC6.participantData).isSome = true ∧
    okValue (joinQuiz cfgC6 5 "A" "Alice" "sock2" stateC6) = none ∧
    okState (joinQuiz cfgC6 5 "A" "Alice" "sock2" stateC6) stateC6 = stateC6 := by decide

/-- C6 amended: below capacity, on a non-completed session, a join with an existing
Participant record rewrites only that record's socketId — username, score, answer
count and join time are carried over unchanged, no other participant record moves,
and the Ranking Store, ledger and session are untouched; a join with no existing
record creates a Participant with score 0 and answersSubmitted 0 and registers a
zero score.  At capacity the reconnection fails instead (see the counterexample). -/
theorem joinQuiz_frame (cfg : Config) (s : RedisState) (sess : QuizSession)
    (now : Nat) (u un sock : String)
    (h : s.session = some sess) (hnc : sess.status ≠ .completed)
    (hcap : getParticipantCount s < cfg.maxParticipants) :
    (∀ p, alookup u s.participantData = some p →
      joinQuiz cfg now u un sock s = .ok (sess, addParticipant s u { p with socketId := sock }) ∧
      (addParticipant s u { p with socketId := sock }).scores = s.scores ∧
      (addParticipant s u { p with socketId := sock }).answers = s.answers ∧
      (addParticipant s u { p with socketId := sock }).session = s.session ∧
      alookup u (addParticipant s u { p with socketId := sock }).participantData
        = some { p with socketId := sock } ∧
      (∀ v, v ≠ u → alookup v (addParticipant s u { p with socketId := sock }).participantData
        = alookup v s.participantData)) ∧
    (alookup u s.participantData = none →
      joinQuiz cfg now u un sock s
        = .ok (sess, updateScore (addParticipant s u ⟨u, un, sock, now, 0, 0⟩) u 0) ∧
      alookup u (updateScore (addParticipant s u ⟨u, un, sock, now, 0, 0⟩) u 0).participantData
        = some ⟨u, un, sock, now, 0, 0⟩ ∧
      getScore (updateScore (addParticipant s u ⟨u, un, sock, now, 0, 0⟩) u 0) u = 0) := by
  constructor
  · intro p hp
    refine ⟨?_, rfl, rfl, rfl, ?_, ?_⟩
    · simp only [joinQuiz, h, hp]
      rw [if_neg hnc, if_neg (not_le.2 hcap)]
    · exact alookup_aupsert_self u _ s.participantData
    · intro v hv
      exact alookup_aupsert_ne _ hv s.participantData
  · intro hp
    refine ⟨?_, ?_, ?_⟩
    · simp only [joinQuiz, h, hp]
      rw [if_neg hnc, if_neg (not_le.2 hcap)]
    · exact alookup_aupsert_self u _ s.participantData
    · unfold getScore updateScore
      rw [alookup_aupsert_self]
      rfl

/-- Witness for C6: a reconnection on the default configuration updates only the
delivery address. -/
theorem joinQuiz_frame_witness :
    stateD.session = some sessD ∧ sessD.status ≠ .completed ∧
    getParticipantCount stateD < defaultConfig.maxParticipants ∧
    (joinQuiz defaultConfig 7 "A" "Alice" "sock9" stateD
      = .ok (sessD, addParticipant stateD "A"
          { userId := "A", username := "Alice", socketId := "sock9", joinedAt := 0,
            score := 0, answersSubmitted := 0 }) ∧
     (addParticipant stateD "A"
          { userId := "A", username := "Alice", socketId := "sock9", joinedAt := 0,
            score := 0, answersSubmitted := 0 }).scores = stateD.scores) := by
  have happ := (joinQuiz_frame defaultConfig stateD sessD 7 "A" "Alice" "sock9" rfl
    (by decide) (by decide)).1 ⟨"A", "Alice", "sock1", 0, 0, 0⟩ (by decide)
  exact ⟨rfl, by decide, by decide, happ.1, happ.2.1⟩

/-- The sanitized success case of `getCurrentQuestion` on its own. -/
lemma getCurrentQuestion_ok (s : RedisState) (sess : QuizSession) (q : Question)
    (h : s.session = some sess) (hq : sess.questions[currentIndex s]? = some q) :
    getCurrentQuestion s = .ok { q with correctAnswer := "" } := by
  obtain ⟨hlt, helem⟩ := List.getElem?_eq_some.1 hq
  have hdrop : sess.questions.drop (currentIndex s)
      = q :: sess.questions.drop (currentIndex s + 1) := by
    rw [List.drop_eq_getElem_cons hlt, helem]
  simp [getCurrentQuestion, h, hdrop]

/-- C7: an in-range current question is returned with its correctAnswer field equal
to the empty string and every other field as stored, both by `getCurrentQuestion`
and by an in-range `nextQuestion`. -/
theorem question_sanitized (s : RedisState) (sess : QuizSession) (q : Question) (now : Nat)
    (h : s.session = some sess) :
    (sess.questions[currentIndex s]? = some q →
      getCurrentQuestion s = .ok { q with correctAnswer := "" }) ∧
    (sess.questions[currentIndex s + 1]? = some q →
      okValue (nextQuestion now s) = some (some { q with correctAnswer := "" })) := by
  refine ⟨getCurrentQuestion_ok s sess q h, ?_⟩
  intro hq
  obtain ⟨hlt, helem⟩ := List.getElem?_eq_some.1 hq
  simp only [nextQuestion, h]
  rw [if_neg (not_le.2 hlt)]
  have hcq : getCurrentQuestion
      { s with session := some { sess with currentQuestionIndex := currentIndex s + 1 },
               currentQuestion := some (currentIndex s + 1) }
      = .ok { q with correctAnswer := "" } :=
    getCurrentQuestion_ok _ _ q rfl hq
  rw [hcq]
  rfl

/-- Witness for C7: the current question of `stateD` is `q1` and is returned with a
blank correct answer. -/
theorem question_sanitized_witness :
    stateD.session = some sessD ∧ sessD.questions[currentIndex stateD]? = some q1 ∧
    getCurrentQuestion stateD = .ok { q1 with correctAnswer := "" } :=
  ⟨rfl, by decide, (question_sanitized stateD sessD q1 0 rfl).1 (by decide)⟩

/-- C10: `submitAnswer` on an in-progress session validates and records ANY question
id that resolves in the global bank — the hypotheses never tie the question to the
session's own list (the witness submits a question outside it): an AnswerRecord is
written for the pair and the answer is scored against the bank question. -/
theorem submitAnswer_accepts_bank_wide (cfg : Config) (s : RedisState) (sess : QuizSession)
    (now : Nat) (u qid ans : String) (tt : ℚ) (q : Question)
    (hs : s.session = some sess) (hst : sess.status = .inProgress)
    (hnew : alookup (u, qid) s.answers = none)
    (hq : getQuestionById cfg.bank qid = some q)
    (hout : q ∉ sess.questions) :
    ∃ r s1, submitAnswer cfg now u qid ans tt s = .ok (r, s1) ∧
      r.correct = validateAnswer cfg.bank qid ans ∧
      r.earnedPoints = (if cfg.timeBonusEnabled then
          calculatePoints cfg.bank qid (validateAnswer cfg.bank qid ans) tt 30
        else if validateAnswer cfg.bank qid ans then (q.points : ℤ) else 0) ∧
      alookup (u, qid) s1.answers
        = some ⟨ans, validateAnswer cfg.bank qid ans, q.correctAnswer, r.earnedPoints, tt, now⟩ := by
  simp only [submitAnswer, hs, hst, hnew, hq]
  rw [if_neg (by simp)]
  by_cases hpos : 0 < (if cfg.timeBonusEnabled then
      calculatePoints cfg.bank qid (validateAnswer cfg.bank qid ans) tt 30
    else if validateAnswer cfg.bank qid ans then (q.points : ℤ) else 0)
  · rw [if_pos hpos]
    simp only [incrementScore]
    cases hlook : alookup u s.participantData with
    | some p => exact ⟨_, _, rfl, rfl, rfl, alookup_aupsert_self _ _ _⟩
    | none => exact ⟨_, _, rfl, rfl, rfl, alookup_aupsert_self _ _ _⟩
  · rw [if_neg hpos]
    cases hlook : alookup u s.participantData with
    | some p => exact ⟨_, _, rfl, rfl, rfl, alookup_aupsert_self _ _ _⟩
    | none => exact ⟨_, _, rfl, rfl, rfl, alookup_aupsert_self _ _ _⟩

-- Score-sum machinery for C2.

/-- The score-sum invariant of the spec: every member's Ranking Store score equals
the sum of the earned points over their stored AnswerRecords. -/
def scoreSumInv (s : RedisState) : Prop := ∀ u, getScore s u = answerPointsSum s u

lemma scoreSumInv_congr {s t : RedisState} (h1 : t.scores = s.scores)
    (h2 : t.answers = s.answers) (hinv : scoreSumInv s) : scoreSumInv t := by
  intro v
  unfold getScore answerPointsSum answersFor
  rw [h1, h2]
  exact hinv v

lemma getScore_updateScore_self (s : RedisState) (u : String) (sc : ℤ) :
    getScore (updateScore s u sc) u = sc := by
  unfold getScore updateScore
  rw [alookup_aupsert_self]
  rfl

lemma getScore_updateScore_ne (s : RedisState) (u : String) (sc : ℤ) (v : String)
    (h : v ≠ u) : getScore (updateScore s u sc) v = getScore s v := by
  unfold getScore updateScore
  rw [alookup_aupsert_ne _ h]

/-- Points awarded by the scoring engine are never negative (positive time limit). -/
lemma calculatePoints_nonneg (bank : List Question) (qid : String) (c : Bool)
    (tt tl : ℚ) (htl : 0 < tl) : 0 ≤ calculatePoints bank qid c tt tl := by
  by_cases hc : c = false
  · simp [calculatePoints, hc]
  · cases hq : getQuestionById bank qid with
    | none =>
      simp only [calculatePoints, hq]
      rw [if_neg hc]
    | some q =>
      simp only [calculatePoints, hq]
      rw [if_neg hc]
      by_cases h : tt < tl
      · rw [if_pos h]
        unfold jsRound
        rw [Int.le_floor]
        have hx : 0 ≤ (tl - tt) / tl := div_nonneg (by linarith) htl.le
        have hp : (0 : ℚ) ≤ (q.points : ℚ) := Nat.cast_nonneg _
        push_cast
        nlinarith
      · rw [if_neg h]
        exact Int.natCast_nonneg _

/-- Effect of one `start` on the score and answer stores: none. -/
lemma runOp_start_frame (cfg : Config) (s : RedisState) (now : Nat) :
    (runOp cfg s (.start now)).scores = s.scores ∧
    (runOp cfg s (.start now)).answers = s.answers := by
  cases hs : s.session with
  | none =>
    simp only [runOp, startQuiz, hs]
    exact ⟨by trivial, by trivial⟩
  | some sess =>
    simp only [runOp, startQuiz, hs]
    by_cases hw : sess.status ≠ .waiting
    · rw [if_pos hw]
      exact ⟨by trivial, by trivial⟩
    · rw [if_neg hw]
      by_cases hc : getParticipantCount s = 0
      · rw [if_pos hc]
        exact ⟨by trivial, by trivial⟩
      · rw [if_neg hc]
        exact ⟨by trivial, by trivial⟩

/-- Effect of one `advance` on the score and answer stores: none. -/
lemma runOp_advance_frame (cfg : Config) (s : RedisState) (now : Nat) :
    (runOp cfg s (.advance now)).scores = s.scores ∧
    (runOp cfg s (.advance now)).answers = s.answers := by
  cases hs : s.session with
  | none =>
    simp only [runOp, nextQuestion, hs]
    exact ⟨by trivial, by trivial⟩
  | some sess =>
    simp only [runOp, nextQuestion, completeQuiz, hs]
    by_cases hend : sess.questions.length ≤ currentIndex s + 1
    · rw [if_pos hend]
      exact ⟨by trivial, by trivial⟩
    · rw [if_neg hend]
      cases hq : getCurrentQuestion
          { s with session := some { sess with currentQuestionIndex := currentIndex s + 1 },
                   currentQuestion := some (currentIndex s + 1) } with
      | error e => exact ⟨by trivial, by trivial⟩
      | ok q => exact ⟨by trivial, by trivial⟩

/-- Effect of one `join` on the score and answer stores: either nothing (missing
session, completed session, full quiz, reconnection) or the fresh-participant path
that re-registers a zero score. -/
lemma runOp_join_frame (cfg : Config) (s : RedisState) (u un sock : String) (now : Nat) :
    ((runOp cfg s (.join u un sock now)).scores = s.scores ∧
     (runOp cfg s (.join u un sock now)).answers = s.answers) ∨
    (alookup u s.participantData = none ∧
     runOp cfg s (.join u un sock now)
       = updateScore (addParticipant s u ⟨u, un, sock, now, 0, 0⟩) u 0) := by
  cases hs : s.session with
  | none =>
    simp only [runOp, joinQuiz, hs]
    exact .inl ⟨by trivial, by trivial⟩
  | some sess =>
    by_cases hcomp : sess.status = .completed
    · simp only [runOp, joinQuiz, hs]
      rw [if_pos hcomp]
      exact .inl ⟨by trivial, by trivial⟩
    · by_cases hcap : cfg.maxParticipants ≤ getParticipantCount s
      · simp only [runOp, joinQuiz, hs]
        rw [if_neg hcomp, if_pos hcap]
        exact .inl ⟨by trivial, by trivial⟩
      · cases hp : alookup u s.participantData with
        | some p =>
          simp only [runOp, joinQuiz, hs, hp]
          rw [if_neg hcomp, if_neg hcap]
          exact .inl ⟨by trivial, by trivial⟩
        | none =>
          simp only [runOp, joinQuiz, hs, hp]
          rw [if_neg hcomp, if_neg hcap]
          exact .inr ⟨by trivial, by trivial⟩

/-- Effect of one `submit` on the score and answer stores: either nothing (bad
state, retransmission, unknown question) or one fresh AnswerRecord whose earned
points are non-negative, plus the matching score increment when they are positive. -/
lemma runOp_submit_cases (cfg : Config) (s : RedisState) (u qid ans : String)
    (tt : ℚ) (now : Nat) :
    ((runOp cfg s (.submit u qid ans tt now)).scores = s.scores ∧
     (runOp cfg s (.submit u qid ans tt now)).answers = s.answers) ∨
    (∃ rec : AnswerRecord, 0 ≤ rec.earnedPoints ∧
      alookup (u, qid) s.answers = none ∧
      (runOp cfg s (.submit u qid ans tt now)).answers = aupsert (u, qid) rec s.answers ∧
      ((0 < rec.earnedPoints ∧
        (runOp cfg s (.submit u qid ans tt now)).scores
          = aupsert u ((alookup u s.scores).getD 0 + rec.earnedPoints) s.scores) ∨
       (rec.earnedPoints = 0 ∧
        (runOp cfg s (.submit u qid ans tt now)).scores = s.scores))) := by
  cases hs : s.session with
  | none =>
    simp only [runOp, submitAnswer, hs]
    exact .inl ⟨by trivial, by trivial⟩
  | some sess =>
    by_cases hst : sess.status ≠ .inProgress
    · simp only [runOp, submitAnswer, hs]
      rw [if_pos hst]
      exact .inl ⟨by trivial, by trivial⟩
    · cases hcached : alookup (u, qid) s.answers with
      | some ex =>
        simp only [runOp, submitAnswer, hs, hcached]
        rw [if_neg hst]
        exact .inl ⟨by trivial, by trivial⟩
      | none =>
        cases hq : getQuestionById cfg.bank qid with
        | none =>
          simp only [runOp, submitAnswer, hs, hcached, hq]
          rw [if_neg hst]
          exact .inl ⟨by trivial, by trivial⟩
        | some q =>
          have hE : 0 ≤ (if cfg.timeBonusEnabled then
              calculatePoints cfg.bank qid (validateAnswer cfg.bank qid ans) tt 30
            else if validateAnswer cfg.bank qid ans then (q.points : ℤ) else 0) := by
            by_cases hb : cfg.timeBonusEnabled
            · rw [if_pos hb]
              exact calculatePoints_nonneg cfg.bank qid _ tt 30 (by norm_num)
            · rw [if_neg hb]
              by_cases hv : validateAnswer cfg.bank qid ans
              · rw [if_pos hv]
                exact Int.natCast_nonneg _
              · rw [if_neg hv]
          by_cases hpos : 0 < (if cfg.timeBonusEnabled then
              calculatePoints cfg.bank qid (validateAnswer cfg.bank qid ans) tt 30
            else if validateAnswer cfg.bank qid ans then (q.points : ℤ) else 0)
          · simp only [runOp, submitAnswer, hs, hcached, hq]
            rw [if_neg hst, if_pos hpos]
            simp only [incrementScore]
            cases hlook : alookup u s.participantData with
            | some p =>
              refine .inr ⟨_, ?_, by trivial, rfl, .inl ⟨?_, rfl⟩⟩
              · exact hE
              · exact hpos
            | none =>
              refine .inr ⟨_, ?_, by trivial, rfl, .inl ⟨?_, rfl⟩⟩
              · exact hE
              · exact hpos
          · have hz : (if cfg.timeBonusEnabled then
                calculatePoints cfg.bank qid (validateAnswer cfg.bank qid ans) tt 30
              else if validateAnswer cfg.bank qid ans then (q.points : ℤ) else 0) = 0 :=
              le_antisymm (not_lt.1 hpos) hE
            simp only [runOp, submitAnswer, hs, hcached, hq]
            rw [if_neg hst, if_neg hpos]
            cases hlook : alookup u s.participantData with
            | some p =>
              refine .inr ⟨_, ?_, by trivial, rfl, .inr ⟨?_, by trivial⟩⟩
              · exact hE
              · exact hz
            | none =>
              refine .inr ⟨_, ?_, by trivial, rfl, .inr ⟨?_, by trivial⟩⟩
              · exact hE
              · exact hz

/-- One safe controller operation preserves the score-sum invariant. -/
lemma scoreSumInv_runOp (cfg : Config) (s : RedisState) (op : Op)
    (hinv : scoreSumInv s) (hsafe : joinSafe s op = true) :
    scoreSumInv (runOp cfg s op) := by
  cases op with
  | start now =>
    obtain ⟨h1, h2⟩ := runOp_start_frame cfg s now
    exact scoreSumInv_congr h1 h2 hinv
  | advance now =>
    obtain ⟨h1, h2⟩ := runOp_advance_frame cfg s now
    exact scoreSumInv_congr h1 h2 hinv
  | remove u => exact scoreSumInv_congr rfl rfl hinv
  | join u un sock now =>
    rcases runOp_join_frame cfg s u un sock now with ⟨h1, h2⟩ | ⟨hnone, heq⟩
    · exact scoreSumInv_congr h1 h2 hinv
    · have hempty : answersFor s u = [] := by
        have hsafe2 := hsafe
        simp only [joinSafe, hnone, Option.isSome_none, Bool.false_or] at hsafe2
        exact List.isEmpty_iff.1 hsafe2
      intro v
      rw [heq]
      have hans : (updateScore (addParticipant s u ⟨u, un, sock, now, 0, 0⟩) u 0).answers
          = s.answers := rfl
      by_cases hv : v = u
      · subst hv
        rw [getScore_updateScore_self]
        unfold answerPointsSum answersFor
        rw [hans]
        have : answerPointsSum s v = 0 := by
          unfold answerPointsSum
          rw [hempty]
          rfl
        unfold answerPointsSum answersFor at this
        rw [this]
      · rw [getScore_updateScore_ne _ _ _ _ hv]
        unfold answerPointsSum answersFor
        rw [hans]
        exact hinv v
  | submit u qid ans tt now =>
    rcases runOp_submit_cases cfg s u qid ans tt now with ⟨h1, h2⟩ | ⟨rec, hE, hnone, hans, hsc⟩
    · exact scoreSumInv_congr h1 h2 hinv
    · intro v
      have hsum : answerPointsSum (runOp cfg s (.submit u qid ans tt now)) v
          = answerPointsSum s v + (if v = u then rec.earnedPoints else 0) := by
        unfold answerPointsSum answersFor
        rw [hans, aupsert_eq_append rec hnone]
        simp only [List.filter_append, List.map_append, List.sum_append]
        by_cases hv : v = u
        · subst hv
          simp [List.filter]
        · have hbe : (u == v) = false := beq_eq_false_iff_ne.2 (Ne.symm hv)
          simp [List.filter, hbe, hv]
      rcases hsc with ⟨hpos, hscores⟩ | ⟨hzero, hscores⟩
      · by_cases hv : v = u
        · subst hv
          have hg : getScore (runOp cfg s (.submit v qid ans tt now)) v
              = (alookup v s.scores).getD 0 + rec.earnedPoints := by
            unfold getScore
            rw [hscores, alookup_aupsert_self]
            rfl
          rw [hg, hsum, if_pos rfl]
          have hold := hinv v
          unfold getScore at hold
          rw [hold]
        · have hg : getScore (runOp cfg s (.submit u qid ans tt now)) v = getScore s v := by
            unfold getScore
            rw [hscores, alookup_aupsert_ne _ hv]
          rw [hg, hsum, if_neg hv, hinv v]
          ring
      · by_cases hv : v = u
        · subst hv
          have hg : getScore (runOp cfg s (.submit v qid ans tt now)) v = getScore s v := by
            unfold getScore
            rw [hscores]
          rw [hg, hsum, if_pos rfl, hzero, hinv v]
          ring
        · have hg : getScore (runOp cfg s (.submit u qid ans tt now)) v = getScore s v := by
            unfold getScore
            rw [hscores]
          rw [hg, hsum, if_neg hv, hinv v]
          ring

lemma scoreSumInv_runOps (cfg : Config) :
    ∀ (ops : List Op) (s : RedisState), scoreSumInv s → safeTrace cfg s ops = true →
      scoreSumInv (runOps cfg s ops)
| [], s, hinv, _ => hinv
| op :: ops, s, hinv, hsafe => by
  have hsplit : joinSafe s op = true ∧ safeTrace cfg (runOp cfg s op) ops = true := by
    simpa [safeTrace, Bool.and_eq_true] using hsafe
  exact scoreSumInv_runOps cfg ops (runOp cfg s op)
    (scoreSumInv_runOp cfg s op hinv hsplit.1) hsplit.2

lemma scoreSumInv_initState (sess : QuizSession) : scoreSumInv (initState sess) := by
  intro u
  rfl

/-- C2 amended: the score-sum invariant — each participant's Ranking Store score
equals the sum of earned points over their AnswerRecords — holds after every
operation sequence in which no join ever runs the fresh-participant path for a
participant who already has AnswerRecords (the situation created by
removeParticipant followed by a re-join, or by a submit before the first join;
such a join re-registers a zero score while the ledger keeps its records,
breaking the invariant, as the counterexample shows). -/
theorem score_sum_invariant_safe_traces (cfg : Config) (sess : QuizSession) (ops : List Op)
    (h : safeTrace cfg (initState sess) ops = true) (u : String) :
    getScore (runOps cfg (initState sess) ops) u
      = answerPointsSum (runOps cfg (initState sess) ops) u :=
  scoreSumInv_runOps cfg ops (initState sess) (scoreSumInv_initState sess) h u

-- Stratified sampling (C8).

lemma jsSlice0_nonneg {α : Type} (l : List α) {e : ℤ} (h : 0 ≤ e) :
    jsSlice0 l e = l.take e.toNat := by
  unfold jsSlice0
  rw [if_neg (not_lt.2 h)]

lemma jsSlice0_natCast {α : Type} (l : List α) (k : Nat) :
    jsSlice0 l (k : ℤ) = l.take k := by
  rw [jsSlice0_nonneg l (Int.natCast_nonneg k), Int.toNat_natCast]

/-- C8 counterexample: at a requested count of 3 every tier pool is large enough
(easy 5, medium 5, hard 10 against ceil targets 2/2/0.6), yet the negative hard
slice bound makes `slice(0, -1)` keep all but one hard question: 13 questions come
back instead of 3 (shown with identity shuffles). -/
theorem getBalancedQuestions_three_returns_thirteen :
    (getQuestionsByDifficulty QUESTION_BANK .easy).length = 5 ∧
    (getQuestionsByDifficulty QUESTION_BANK .medium).length = 5 ∧
    (getQuestionsByDifficulty QUESTION_BANK .hard).length = 10 ∧
    (getBalancedQuestions QUESTION_BANK id id id id 3).length = 13 := by
  refine ⟨by decide, by decide, by decide, ?_⟩
  simp only [getBalancedQuestions, easyTarget_three, mediumTarget_three, hardTarget_three]
  decide

/-- C8 amended: with each shuffle an arbitrary permutation and a NON-NEGATIVE hard
target (hardTarget n < 0 exactly for n = 1 and n = 3, where the JS negative slice
bound misbehaves), the assembled sample takes min(target, pool) from each tier —
all of an undersized tier, never more than the target — and has length n when
every pool covers its target. -/
theorem getBalancedQuestions_stratified (bank : List Question) (n : Nat)
    (σe σm σh σf : List Question → List Question)
    (he : (σe (getQuestionsByDifficulty bank .easy)).Perm (getQuestionsByDifficulty bank .easy))
    (hm : (σm (getQuestionsByDifficulty bank .medium)).Perm
      (getQuestionsByDifficulty bank .medium))
    (hh : (σh (getQuestionsByDifficulty bank .hard)).Perm (getQuestionsByDifficulty bank .hard))
    (hf : ∀ l, (σf l).Perm l)
    (hn : 0 ≤ hardTarget n) :
    (getBalancedQuestions bank σe σm σh σf n).length
      = min (easyTarget n) (getQuestionsByDifficulty bank .easy).length
        + min (mediumTarget n) (getQuestionsByDifficulty bank .medium).length
        + min (hardTarget n).toNat (getQuestionsByDifficulty bank .hard).length ∧
    (easyTarget n ≤ (getQuestionsByDifficulty bank .easy).length →
      mediumTarget n ≤ (getQuestionsByDifficulty bank .medium).length →
      (hardTarget n).toNat ≤ (getQuestionsByDifficulty bank .hard).length →
      (getBalancedQuestions bank σe σm σh σf n).length = n) ∧
    (getQuestionsByDifficulty (getBalancedQuestions bank σe σm σh σf n) .easy).length
      = min (easyTarget n) (getQuestionsByDifficulty bank .easy).length ∧
    (getQuestionsByDifficulty (getBalancedQuestions bank σe σm σh σf n) .medium).length
      = min (mediumTarget n) (getQuestionsByDifficulty bank .medium).length ∧
    (getQuestionsByDifficulty (getBalancedQuestions bank σe σm σh σf n) .hard).length
      = min (hardTarget n).toNat (getQuestionsByDifficulty bank .hard).length := by
  have hperm : (getBalancedQuestions bank σe σm σh σf n).Perm
      ((σe (getQuestionsByDifficulty bank .easy)).take (easyTarget n)
        ++ (σm (getQuestionsByDifficulty bank .medium)).take (mediumTarget n)
        ++ (σh (getQuestionsByDifficulty bank .hard)).take (hardTarget n).toNat) := by
    simp only [getBalancedQuestions, jsSlice0_natCast, jsSlice0_nonneg _ hn]
    exact hf _
  have hlenE : (σe (getQuestionsByDifficulty bank .easy)).length
      = (getQuestionsByDifficulty bank .easy).length := he.length_eq
  have hlenM : (σm (getQuestionsByDifficulty bank .medium)).length
      = (getQuestionsByDifficulty bank .medium).length := hm.length_eq
  have hlenH : (σh (getQuestionsByDifficulty bank .hard)).length
      = (getQuestionsByDifficulty bank .hard).length := hh.length_eq
  have hlen : (getBalancedQuestions bank σe σm σh σf n).length
      = min (easyTarget n) (getQuestionsByDifficulty bank .easy).length
        + min (mediumTarget n) (getQuestionsByDifficulty bank .medium).length
        + min (hardTarget n).toNat (getQuestionsByDifficulty bank .hard).length := by
    rw [hperm.length_eq]
    simp only [List.length_append, List.length_take, hlenE, hlenM, hlenH]
  have hallE : ∀ q ∈ (σe (getQuestionsByDifficulty bank .easy)).take (easyTarget n),
      q.difficulty = .easy := by
    intro q hq
    have h1 : q ∈ σe (getQuestionsByDifficulty bank .easy) := List.mem_of_mem_take hq
    have h2 : q ∈ getQuestionsByDifficulty bank .easy := he.mem_iff.1 h1
    have h3 := (List.mem_filter.1 h2).2
    exact of_decide_eq_true h3
  have hallM : ∀ q ∈ (σm (getQuestionsByDifficulty bank .medium)).take (mediumTarget n),
      q.difficulty = .medium := by
    intro q hq
    have h1 : q ∈ σm (getQuestionsByDifficulty bank .medium) := List.mem_of_mem_take hq
    have h2 : q ∈ getQuestionsByDifficulty bank .medium := hm.mem_iff.1 h1
    have h3 := (List.mem_filter.1 h2).2
    exact of_decide_eq_true h3
  have hallH : ∀ q ∈ (σh (getQuestionsByDifficulty bank .hard)).take (hardTarget n).toNat,
      q.difficulty = .hard := by
    intro q hq
    have h1 : q ∈ σh (getQuestionsByDifficulty bank .hard) := List.mem_of_mem_take hq
    have h2 : q ∈ getQuestionsByDifficulty bank .hard := hh.mem_iff.1 h1
    have h3 := (List.mem_filter.1 h2).2
    exact of_decide_eq_true h3
  have hcount : ∀ d : Difficulty,
      (getQuestionsByDifficulty (getBalancedQuestions bank σe σm σh σf n) d).length
        = ((((σe (getQuestionsByDifficulty bank .easy)).take (easyTarget n)).filter
              (fun q => decide (q.difficulty = d))).length
          + (((σm (getQuestionsByDifficulty bank .medium)).take (mediumTarget n)).filter
              (fun q => decide (q.difficulty = d))).length)
          + (((σh (getQuestionsByDifficulty bank .hard)).take (hardTarget n).toNat).filter
              (fun q => decide (q.difficulty = d))).length := by
    intro d
    unfold getQuestionsByDifficulty
    rw [(hperm.filter (fun q => decide (q.difficulty = d))).length_eq]
    rw [List.filter_append, List.filter_append, List.length_append, List.length_append]
    rfl
  have hfullE : (((σe (getQuestionsByDifficulty bank .easy)).take (easyTarget n)).filter
      (fun q => decide (q.difficulty = Difficulty.easy)))
        = (σe (getQuestionsByDifficulty bank .easy)).take (easyTarget n) :=
    List.filter_eq_self.2 (fun q hq => decide_eq_true (hallE q hq))
  have hfullM : (((σm (getQuestionsByDifficulty bank .medium)).take (mediumTarget n)).filter
      (fun q => decide (q.difficulty = Difficulty.medium)))
        = (σm (getQuestionsByDifficulty bank .medium)).take (mediumTarget n) :=
    List.filter_eq_self.2 (fun q hq => decide_eq_true (hallM q hq))
  have hfullH : (((σh (getQuestionsByDifficulty bank .hard)).take (hardTarget n).toNat).filter
      (fun q => decide (q.difficulty = Difficulty.hard)))
        = (σh (getQuestionsByDifficulty bank .hard)).take (hardTarget n).toNat :=
    List.filter_eq_self.2 (fun q hq => decide_eq_true (hallH q hq))
  have hnilEM : (((σm (getQuestionsByDifficulty bank .medium)).take (mediumTarget n)).filter
      (fun q => decide (q.difficulty = Difficulty.easy))) = [] :=
    List.filter_eq_nil_iff.2 (fun q hq hd => by
      have := hallM q hq
      rw [this] at hd
      exact absurd (of_decide_eq_true hd) (by decide))
  have hnilEH : (((σh (getQuestionsByDifficulty bank .hard)).take (hardTarget n).toNat).filter
      (fun q => decide (q.difficulty = Difficulty.easy))) = [] :=
    List.filter_eq_nil_iff.2 (fun q hq hd => by
      have := hallH q hq
      rw [this] at hd
      exact absurd (of_decide_eq_true hd) (by decide))
  have hnilME : (((σe (getQuestionsByDifficulty bank .easy)).take (easyTarget n)).filter
      (fun q => decide (q.difficulty = Difficulty.medium))) = [] :=
    List.filter_eq_nil_iff.2 (fun q hq hd => by
      have := hallE q hq
      rw [this] at hd
      exact absurd (of_decide_eq_true hd) (by decide))
  have hnilMH : (((σh (getQuestionsByDifficulty bank .hard)).take (hardTarget n).toNat).filter
      (fun q => decide (q.difficulty = Difficulty.medium))) = [] :=
    List.filter_eq_nil_iff.2 (fun q hq hd => by
      have := hallH q hq
      rw [this] at hd
      exact absurd (of_decide_eq_true hd) (by decide))
  have hnilHE : (((σe (getQuestionsByDifficulty bank .easy)).take (easyTarget n)).filter
      (fun q => decide (q.difficulty = Difficulty.hard))) = [] :=
    List.filter_eq_nil_iff.2 (fun q hq hd => by
      have := hallE q hq
      rw [this] at hd
      exact absurd (of_decide_eq_true hd) (by decide))
  have hnilHM : (((σm (getQuestionsByDifficulty bank .medium)).take (mediumTarget n)).filter
      (fun q => decide (q.difficulty = Difficulty.hard))) = [] :=
    List.filter_eq_nil_iff.2 (fun q hq hd => by
      have := hallM q hq
      rw [this] at hd
      exact absurd (of_decide_eq_true hd) (by decide))
  refine ⟨hlen, ?_, ?_, ?_, ?_⟩
  · intro hbe hbm hbh
    rw [hlen, min_eq_left hbe, min_eq_left hbm, min_eq_left hbh]
    have := hn
    unfold hardTarget at this ⊢
    omega
  · rw [hcount Difficulty.easy, hfullE, hnilEM, hnilEH]
    simp only [List.length_take, List.length_nil, hlenE]
    omega
  · rw [hcount Difficulty.medium, hfullM, hnilME, hnilMH]
    simp only [List.length_take, List.length_nil, hlenM]
    omega
  · rw [hcount Difficulty.hard, hfullH, hnilHE, hnilHM]
    simp only [List.length_take, List.length_nil, hlenH]
    omega

/-- Evaluation of the 40% ceiling at a request of 5 questions. -/
lemma easyTarget_five : easyTarget 5 = 2 := by
  unfold easyTarget
  rw [Nat.ceil_eq_iff (by norm_num)]
  norm_num

/-- Evaluation of the medium-tier target at a request of 5 questions. -/
lemma mediumTarget_five : mediumTarget 5 = 2 := by
  unfold mediumTarget
  rw [Nat.ceil_eq_iff (by norm_num)]
  norm_num

/-- The hard-tier slice bound at a request of 5 questions. -/
lemma hardTarget_five : hardTarget 5 = 1 := by
  unfold hardTarget
  rw [easyTarget_five, mediumTarget_five]
  norm_num

/-- Witness for C8 at n = 5 with identity shuffles: exactly 5 questions. -/
theorem getBalancedQuestions_stratified_witness :
    0 ≤ hardTarget 5 ∧ (getBalancedQuestions QUESTION_BANK id id id id 5).length = 5 :=
  ⟨by rw [hardTarget_five]; norm_num,
    (getBalancedQuestions_stratified QUESTION_BANK 5 id id id id (List.Perm.refl _)
      (List.Perm.refl _) (List.Perm.refl _) (fun l => List.Perm.refl l)
      (by rw [hardTarget_five]; norm_num)).2.1
      (by rw [easyTarget_five]; decide)
      (by rw [mediumTarget_five]; decide)
      (by rw [hardTarget_five]; decide)⟩

/-- A fresh two-question waiting session for the C2 trace theorems. -/
def sessC2 : QuizSession := ⟨"QUIZ6", "Vocab", .waiting, [q1, q6], 0, none, none, 0, 100⟩

/-- C2 counterexample trace: join, start, score 10 points on q1, disconnect
(removeParticipant), then rejoin. -/
def opsC2 : List Op :=
  [.join "A" "Alice" "sock1" 0, .start 1, .submit "A" "q1" "Joyful" 30 2,
   .remove "A", .join "A" "Alice" "sock2" 3]

/-- C2 counterexample: after remove + rejoin the Ranking Store score of A is reset
to 0 while A's stored AnswerRecords still sum to 10 — the claimed invariant fails
for this controller-operation sequence. -/
theorem score_sum_broken_by_remove_rejoin :
    getScore (runOps defaultConfig (initState sessC2) opsC2) "A" = 0 ∧
    answerPointsSum (runOps defaultConfig (initState sessC2) opsC2) "A" = 10 ∧
    getScore (runOps defaultConfig (initState sessC2) opsC2) "A"
      ≠ answerPointsSum (runOps defaultConfig (initState sessC2) opsC2) "A" := by decide

/-- A trace with no unsafe join: join, start, submit, duplicate submit, advance. -/
def opsC2safe : List Op :=
  [.join "A" "Alice" "sock1" 0, .start 1, .submit "A" "q1" "Joyful" 30 2,
   .submit "A" "q1" "Joyful" 30 3, .advance 4]

/-- Witness for C2: the amended invariant evaluated on a five-operation trace. -/
theorem score_sum_invariant_safe_traces_witness :
    safeTrace defaultConfig (initState sessC2) opsC2safe = true ∧
    getScore (runOps defaultConfig (initState sessC2) opsC2safe) "A"
      = answerPointsSum (runOps defaultConfig (initState sessC2) opsC2safe) "A" :=
  ⟨by decide, score_sum_invariant_safe_traces defaultConfig sessC2 opsC2safe (by decide) "A"⟩

/-- Witness for C10: participant A in a session whose questions are q1 and q6
submits the out-of-session hard question q11 and a record is written for it. -/
theorem submitAnswer_accepts_bank_wide_witness :
    stateD.session = some sessD ∧ sessD.status = .inProgress ∧
    alookup ("A", "q11") stateD.answers = none ∧
    getQuestionById defaultConfig.bank "q11" = some q11 ∧
    q11 ∉ sessD.questions ∧
    (∃ r s1, submitAnswer defaultConfig 9 "A" "q11" "wrong" 30 stateD = .ok (r, s1) ∧
      r.correct = validateAnswer defaultConfig.bank "q11" "wrong" ∧
      r.earnedPoints = (if defaultConfig.timeBonusEnabled then
          calculatePoints defaultConfig.bank "q11"
            (validateAnswer defaultConfig.bank "q11" "wrong") 30 30
        else if validateAnswer defaultConfig.bank "q11" "wrong" then (q11.points : ℤ) else 0) ∧
      alookup ("A", "q11") s1.answers
        = some ⟨"wrong", validateAnswer defaultConfig.bank "q11" "wrong", q11.correctAnswer,
                r.earnedPoints, 30, 9⟩) :=
  ⟨rfl, rfl, by decide, by decide, by decide,
    submitAnswer_accepts_bank_wide defaultConfig stateD sessD 9 "A" "q11" "wrong" 30 q11
      rfl rfl (by decide) (by decide) (by decide)⟩

-- Leaderboard ordering (C9).

/-- A session backing the leaderboard states. -/
def sessC9 : QuizSession := ⟨"QUIZ7", "Vocab", .inProgress, [q1], 0, some 1, none, 0, 100⟩

/-- Keyspace with alice registered before bob, both at score 5. -/
def stateC9 : RedisState :=
  ⟨some sessC9, ["alice", "bob"],
   [("alice", ⟨"alice", "Alice", "s1", 0, 5, 1⟩), ("bob", ⟨"bob", "Bob", "s2", 1, 5, 1⟩)],
   [("alice", 5), ("bob", 5)], [], some 0⟩

/-- Same keyspace with alice strictly ahead. -/
def stateC9b : RedisState := { stateC9 with scores := [("alice", 7), ("bob", 5)] }

/-- C9 counterexample: alice arrived (and was inserted) before bob and both hold
score 5, yet `ZREVRANGE`-backed leaderboards list bob first — equal scores come
back in descending lexicographic member order, not in insertion/arrival order. -/
theorem leaderboard_ties_not_insertion_order :
    stateC9.scores.map Prod.fst = ["alice", "bob"] ∧
    getScore stateC9 "alice" = getScore stateC9 "bob" ∧
    (redisGetFullLeaderboard stateC9).map LeaderboardEntry.userId = ["bob", "alice"] ∧
    (redisGetLeaderboard stateC9 10).map ScoreEntry.userId = ["bob", "alice"] := by decide

lemma eq_of_mem_nodup_keys {α : Type} :
    ∀ {l : List (String × α)}, (l.map Prod.fst).Nodup →
      ∀ {k : String} {a b : α}, (k, a) ∈ l → (k, b) ∈ l → a = b := by
  intro l
  induction l with
  | nil =>
    intro _ k a b ha
    exact absurd ha (List.not_mem_nil _)
  | cons x rest ih =>
    intro hnd k a b ha hb
    rw [List.map_cons, List.nodup_cons] at hnd
    have hkey : ∀ {c : α}, (k, c) ∈ rest → k ∈ rest.map Prod.fst := by
      intro c hc
      exact List.mem_map.2 ⟨(k, c), hc, rfl⟩
    rcases List.mem_cons.1 ha with ha1 | ha1
    · rcases List.mem_cons.1 hb with hb1 | hb1
      · rw [← ha1] at hb1
        exact ((Prod.ext_iff.1 hb1).2).symm
      · exfalso
        apply hnd.1
        rw [← ha1]
        exact hkey hb1
    · rcases List.mem_cons.1 hb with hb1 | hb1
      · exfalso
        apply hnd.1
        rw [← hb1]
        exact hkey ha1
      · exact ih hnd.2 ha1 hb1

lemma sortedScores_pairwise (s : RedisState) : (sortedScores s).Pairwise zrevLe :=
  List.sorted_insertionSort zrevLe s.scores

lemma sortedScores_perm (s : RedisState) : (sortedScores s).Perm s.scores :=
  List.perm_insertionSort zrevLe s.scores

/-- The strict entry order underlying the claim: higher score first, ties in
descending lexicographic member order. -/
def lbAfter (e1 e2 : LeaderboardEntry) : Prop :=
  e2.score < e1.score ∨ (e1.score = e2.score ∧ lexLtB e2.userId.data e1.userId.data = true)

/-- C9 amended: for a scores set with distinct members, the full leaderboard is
strictly ordered by descending score with equal scores in DESCENDING lexicographic
member order (not insertion order); ranks are reported 1-based in list order; the
output is a function of the stored scores alone, so repeated queries with no
intervening writes agree; and a strictly highest scorer heads the list with
`ZREVRANK` 0 and reported rank 1. -/
theorem leaderboard_order_and_ties (s : RedisState)
    (hnd : (s.scores.map Prod.fst).Nodup) :
    (redisGetFullLeaderboard s).Pairwise lbAfter ∧
    (redisGetFullLeaderboard s).map LeaderboardEntry.rank = List.range' 1 s.scores.length ∧
    (∀ t : RedisState, t.scores = s.scores → ∀ limit,
      redisGetLeaderboard t limit = redisGetLeaderboard s limit) ∧
    (∀ u sc, (u, sc) ∈ s.scores → (∀ v sc2, (v, sc2) ∈ s.scores → v ≠ u → sc2 < sc) →
      getRank s u = some 0 ∧
      ∃ e rest, redisGetFullLeaderboard s = e :: rest ∧
        e.userId = u ∧ e.score = sc ∧ e.rank = 1) := by
  have hndL : ((sortedScores s).map Prod.fst).Nodup :=
    (((sortedScores_perm s).map Prod.fst).nodup_iff).2 hnd
  have hpairNe : (sortedScores s).Pairwise (fun a b => a.1 ≠ b.1) :=
    List.pairwise_map.1 hndL
  have hstrict : (sortedScores s).Pairwise (fun a b =>
      b.2 < a.2 ∨ (a.2 = b.2 ∧ lexLtB b.1.data a.1.data = true)) := by
    refine ((sortedScores_pairwise s).and hpairNe).imp ?_
    rintro a b ⟨hle, hne⟩
    unfold zrevLe zrevLeB at hle
    by_cases hsc : a.2 = b.2
    · rw [if_pos hsc] at hle
      have hfalse : lexLtB a.1.data b.1.data = false := by
        cases h : lexLtB a.1.data b.1.data
        · rfl
        · rw [h] at hle
          cases hle
      right
      refine ⟨hsc, ?_⟩
      cases h2 : lexLtB b.1.data a.1.data
      · exfalso
        apply hne
        have hdata : a.1.data = b.1.data := lexLtB_eq_of_not hfalse h2
        have : (⟨a.1.data⟩ : String) = ⟨b.1.data⟩ := congrArg String.mk hdata
        exact this
      · rfl
    · rw [if_neg hsc] at hle
      exact .inl (of_decide_eq_true hle)
  constructor
  · unfold redisGetFullLeaderboard
    rw [List.pairwise_map]
    have h1 : ((sortedScores s).enum.map Prod.snd).Pairwise (fun a b =>
        b.2 < a.2 ∨ (a.2 = b.2 ∧ lexLtB b.1.data a.1.data = true)) := by
      rw [List.enum_eq_enumFrom, List.enumFrom_map_snd]
      exact hstrict
    have h2 := List.pairwise_map.1 h1
    exact h2.imp (fun h => h)
  constructor
  · unfold redisGetFullLeaderboard
    rw [List.map_map]
    have hcomp : (LeaderboardEntry.rank ∘ fun p : Nat × (String × ℤ) =>
        ({ userId := p.2.1,
           username := match alookup p.2.1 s.participantData with
             | some part => if part.username = "" then "Unknown" else part.username
             | none => "Unknown",
           score := p.2.2, rank := p.1 + 1 } : LeaderboardEntry))
        = (fun p : Nat × (String × ℤ) => p.1 + 1) := rfl
    rw [hcomp]
    have hsplit : (fun p : Nat × (String × ℤ) => p.1 + 1)
        = (fun i : Nat => 1 + i) ∘ Prod.fst := by
      funext p
      simp [Nat.add_comm]
    rw [hsplit, ← List.map_map, List.enum_eq_enumFrom, List.enumFrom_map_fst,
      List.map_add_range']
    rw [(sortedScores_perm s).length_eq]
  constructor
  · intro t ht limit
    unfold redisGetLeaderboard sortedScores
    rw [ht]
  · intro u sc hmem hmax
    have hmemL : (u, sc) ∈ sortedScores s := (sortedScores_perm s).mem_iff.2 hmem
    cases hL : sortedScores s with
    | nil =>
      rw [hL] at hmemL
      exact absurd hmemL (List.not_mem_nil _)
    | cons e0 rest0 =>
      have he0mem : e0 ∈ s.scores := (sortedScores_perm s).mem_iff.1 (hL ▸ List.mem_cons_self e0 rest0)
      have he0 : e0 = (u, sc) := by
        by_cases h1 : e0.1 = u
        · have hpair : (u, e0.2) ∈ s.scores := by
            rw [← h1]
            exact he0mem
          have : e0.2 = sc := eq_of_mem_nodup_keys hnd hpair hmem
          rw [Prod.ext_iff]
          exact ⟨h1, this⟩
        · exfalso
          have hlt : e0.2 < sc := hmax e0.1 e0.2 he0mem h1
          rw [hL] at hmemL
          rcases List.mem_cons.1 hmemL with heq | hrest
          · rw [← heq] at h1
            exact h1 rfl
          · have hsorted := sortedScores_pairwise s
            rw [hL] at hsorted
            have hrel : zrevLe e0 (u, sc) := (List.pairwise_cons.1 hsorted).1 (u, sc) hrest
            unfold zrevLe zrevLeB at hrel
            by_cases hsc : e0.2 = sc
            · exact absurd hsc (ne_of_lt hlt)
            · rw [if_neg hsc] at hrel
              exact absurd (of_decide_eq_true hrel) (asymm hlt)
      constructor
      · unfold getRank
        rw [hL, he0, List.map_cons]
        unfold zrevrankAux
        rw [if_pos rfl]
      · unfold redisGetFullLeaderboard
        rw [hL, he0, List.enum_cons, List.map_cons]
        exact ⟨_, _, rfl, rfl, rfl, rfl⟩

/-- Witness for C9: with alice strictly ahead the strictly-highest scorer has
`ZREVRANK` 0. -/
theorem leaderboard_order_and_ties_witness :
    (stateC9b.scores.map Prod.fst).Nodup ∧ getRank stateC9b "alice" = some 0 :=
  ⟨by decide,
    ((leaderboard_order_and_ties stateC9b (by decide)).2.2.2 "alice" 7 (by decide)
      (fun v sc2 hmem hne => by
        simp only [stateC9b, stateC9, List.mem_cons, Prod.mk.injEq,
          List.not_mem_nil, or_false] at hmem
        rcases hmem with ⟨hv, _⟩ | ⟨_, hs⟩
        · exact absurd hv hne
        · rw [hs]
          norm_num)).1⟩

end VocabQuiz
